import Mathlib

/-!
Verification of the AbletonOSC client wrapper library.

The repository consists of a thin core transport client (message codec,
UDP transport, background listener loop, correlation table, subscription
registry and client facade) plus per-entity wrapper classes (Song, Clip,
Device, ...) that format commands and parse fixed-shape responses.

The core client module itself (osc_client/client.py) is not present in the
sources; only the wrapper classes, tests and scripts are.  Where a claim
is decided by the missing core, the corresponding definitions below are
modelled from the specification and carry a doc comment saying so.  The
wrapper-layer definitions are embedded directly from the Python sources
(osc_client/song.py, clip.py, device.py, __init__.py).
-/

/-- An OSC argument: a number (integer or float, kept distinct), a string,
or a boolean.  Wire floats are modelled as rationals. -/
inductive OscArg where
  | int (n : Int)
  | float (q : Rat)
  | str (s : String)
  | bool (b : Bool)
  deriving DecidableEq, Repr

/-- A wire message: a slash-delimited address plus a typed argument list. -/
structure Message where
  address : String
  args : List OscArg
  deriving DecidableEq, Repr

/-- Decoding failure on malformed input (truncated tag, length mismatch). -/
inductive DecodingError where
  | truncated
  | badTag
  | trailing
  deriving DecidableEq, Repr

/-- Modelled from the spec: the Message Codec of the missing core module
(osc_client/client.py).  Raw bytes are abstracted as a list of naturals.
An integer is serialised as a sign byte followed by its magnitude. -/
def encodeInt (n : Int) : List Nat :=
  [if n < 0 then 1 else 0, n.natAbs]

/-- Modelled from the spec: string serialisation of the missing codec,
a length field followed by the character codes. -/
def encodeString (s : String) : List Nat :=
  s.length :: s.data.map Char.toNat

/-- Modelled from the spec: one tagged argument of the missing codec.
Tags: 0 = int, 1 = float, 2 = string, 3 = bool; integer and floating
arguments are kept distinct on the wire. -/
def encodeArg : OscArg → List Nat
  | .int n => 0 :: encodeInt n
  | .float q => 1 :: (encodeInt q.num ++ [q.den])
  | .str s => 2 :: encodeString s
  | .bool b => [3, if b then 1 else 0]

/-- Modelled from the spec: `encode(Message) -> bytes` of the missing
codec: serialised address, argument count, then each tagged argument. -/
def encode (m : Message) : List Nat :=
  encodeString m.address ++ m.args.length :: (m.args.map encodeArg).flatten

/-- Modelled from the spec: integer deserialisation of the missing codec. -/
def decodeInt : List Nat → Except DecodingError (Int × List Nat)
  | s :: mag :: rest => .ok (if s = 1 then -(mag : Int) else (mag : Int), rest)
  | _ => .error .truncated

/-- Modelled from the spec: string deserialisation of the missing codec;
fails on a length mismatch. -/
def decodeString : List Nat → Except DecodingError (String × List Nat)
  | n :: rest =>
      if n ≤ rest.length then
        .ok (String.mk ((rest.take n).map Char.ofNat), rest.drop n)
      else .error .truncated
  | [] => .error .truncated

/-- Modelled from the spec: one tagged argument of the missing codec;
fails on a truncated or unknown type tag. -/
def decodeArg : List Nat → Except DecodingError (OscArg × List Nat)
  | 0 :: rest => do
      let (n, r) ← decodeInt rest
      .ok (.int n, r)
  | 1 :: rest => do
      let (num, r) ← decodeInt rest
      match r with
      | d :: r2 => .ok (.float (mkRat num d), r2)
      | [] => .error .truncated
  | 2 :: rest => do
      let (s, r) ← decodeString rest
      .ok (.str s, r)
  | 3 :: b :: rest => .ok (.bool (b = 1), rest)
  | _ => .error .badTag

/-- Modelled from the spec: the argument-list loop of the missing codec,
reading a known count of tagged arguments. -/
def decodeArgs : Nat → List Nat → Except DecodingError (List OscArg × List Nat)
  | 0, bytes => .ok ([], bytes)
  | k + 1, bytes => do
      let (a, rest) ← decodeArg bytes
      let (as, rest2) ← decodeArgs k rest
      .ok (a :: as, rest2)

/-- Modelled from the spec: `decode(bytes) -> Message` of the missing
codec; total over well-formed input, fails with a `DecodingError` on
malformed input. -/
def decode (bytes : List Nat) : Except DecodingError Message := do
  let (addr, rest) ← decodeString bytes
  match rest with
  | k :: rest2 => do
      let (as, rest3) ← decodeArgs k rest2
      if rest3 = [] then .ok ⟨addr, as⟩ else .error .trailing
  | [] => .error .truncated

/-! ## Python value conversions used by the wrapper layer

The wrapper methods apply Python conversions `int(...)`, `float(...)`,
`bool(...)`, `str(...)` to positions of the response tuple.  They are
modelled over `OscArg`; parsing of numeric string literals by `int`/`float`
is not modelled (the theorems below restrict to non-string arguments),
and the decimal rendering of floats by `str` is approximated by `toString`
on the rational. -/

/-- Python runtime errors the wrapper code can raise. -/
inductive PyError where
  | indexError
  | valueError
  deriving DecidableEq, Repr

/-- Truncation toward zero, as Python `int(float)` does. -/
def ratTrunc (q : Rat) : Int :=
  Int.tdiv q.num (q.den : Int)

/-- Python `int(x)` on an OSC argument. -/
def pyInt : OscArg → Except PyError Int
  | .int n => .ok n
  | .float q => .ok (ratTrunc q)
  | .bool b => .ok (if b then 1 else 0)
  | .str _ => .error .valueError

/-- Python `float(x)` on an OSC argument. -/
def pyFloat : OscArg → Except PyError Rat
  | .int n => .ok (n : Rat)
  | .float q => .ok q
  | .bool b => .ok (if b then 1 else 0)
  | .str _ => .error .valueError

/-- Python `bool(x)` (truthiness) on an OSC argument; total. -/
def pyBool : OscArg → Bool
  | .int n => n ≠ 0
  | .float q => q ≠ 0
  | .bool b => b
  | .str s => s ≠ ""

/-- Python `str(x)` on an OSC argument; total. -/
def pyStr : OscArg → String
  | .int n => toString n
  | .float q => toString q
  | .bool b => if b then "True" else "False"
  | .str s => s

/-- Python `result[i]` on a response tuple: IndexError when out of range. -/
def pyIndex (r : List OscArg) (i : Nat) : Except PyError OscArg :=
  if h : i < r.length then .ok (r.get ⟨i, h⟩) else .error .indexError

/-- True for arguments that are not strings; on such arguments the
`int`/`float` conversions always succeed. -/
def scalarArg : OscArg → Bool
  | .str _ => false
  | _ => true

/-! ## Calls made by the wrapper layer against the client facade

Each wrapper method is embedded as the list of client calls it performs,
in order.  The constructors correspond to the facade methods the Python
sources invoke on `self._client`. -/

/-- One call on the client facade, as performed by the wrapper layer. -/
inductive Call where
  | send (addr : String) (args : List OscArg)
  | query (addr : String) (args : List OscArg)
  | startListener (addr : String)
  | stopListener (addr : String)
  | closeCall
  deriving DecidableEq, Repr

/-- The Python attribute name through which each facade call is made. -/
def methodName : Call → String
  | .send _ _ => "send"
  | .query _ _ => "query"
  | .startListener _ => "start_listener"
  | .stopListener _ => "stop_listener"
  | .closeCall => "close"

namespace Song

/-- Client calls of `Song.on_tempo_change` (song.py lines 174-183):
a fire-and-forget start request, then the callback registration. -/
def on_tempo_change : List Call :=
  [.send "/live/song/start_listen/tempo" [],
   .startListener "/live/song/get/tempo"]

/-- Client calls of `Song.stop_tempo_listener` (song.py lines 185-188). -/
def stop_tempo_listener : List Call :=
  [.send "/live/song/stop_listen/tempo" [],
   .stopListener "/live/song/get/tempo"]

/-- Client calls of `Song.on_is_playing_change` (song.py lines 190-199). -/
def on_is_playing_change : List Call :=
  [.send "/live/song/start_listen/is_playing" [],
   .startListener "/live/song/get/is_playing"]

/-- Client calls of `Song.stop_is_playing_listener` (song.py 201-204). -/
def stop_is_playing_listener : List Call :=
  [.send "/live/song/stop_listen/is_playing" [],
   .stopListener "/live/song/get/is_playing"]

/-- All client calls made by the listener-related wrapper methods of
song.py, concatenated. -/
def listenerCalls : List Call :=
  on_tempo_change ++ stop_tempo_listener ++
    on_is_playing_change ++ stop_is_playing_listener

/-- Response processing of `Song.get_tempo` (song.py lines 19-26):
`float(result[0])` applied to the query result. -/
def get_tempo (result : List OscArg) : Except PyError Rat := do
  pyFloat (← pyIndex result 0)

end Song

/-- The configuration with which `connect` builds the client. -/
structure ClientConfig where
  host : String
  send_port : Int
  receive_port : Int
  deriving DecidableEq, Repr

/-- `connect` from osc_client/__init__.py lines 34-51: builds the client
from host, send port and receive port (defaults "127.0.0.1", 11000,
11001 at the call sites). -/
def connect (host : String) (send_port receive_port : Int) : ClientConfig :=
  ⟨host, send_port, receive_port⟩

namespace Clip

/-- A MIDI note as parsed by clip.py (class Note, lines 11-26). -/
structure Note where
  pitch : Int
  start_time : Rat
  duration : Rat
  velocity : Int
  mute : Bool
  deriving DecidableEq, Repr

/-- The note-parsing loop of `Clip.get_notes` (clip.py lines 188-198):
`for i in range(0, len(values), 5)` appending a Note when a complete
5-value group `values[i..i+4]` exists. -/
def notesLoop (values : List OscArg) (i : Nat) : Except PyError (List Note) :=
  if hi : i < values.length then
    if h : i + 4 < values.length then do
      let p ← pyInt (values.get ⟨i, by omega⟩)
      let st ← pyFloat (values.get ⟨i + 1, by omega⟩)
      let d ← pyFloat (values.get ⟨i + 2, by omega⟩)
      let v ← pyInt (values.get ⟨i + 3, by omega⟩)
      let rest ← notesLoop values (i + 5)
      .ok (⟨p, st, d, v, pyBool (values.get ⟨i + 4, h⟩)⟩ :: rest)
    else notesLoop values (i + 5)
  else .ok []
  termination_by values.length - i

/-- `Clip.get_notes` response processing (clip.py lines 171-199): when the
response has more than 2 values, parse `list(result)[2:]` in groups of
five; otherwise return the empty list.  (The source also checks that the
response is non-empty, which is implied by the length check.) -/
def get_notes (result : List OscArg) : Except PyError (List Note) :=
  if 2 < result.length then notesLoop (result.drop 2) 0 else .ok []

/-- The same parse written by direct recursion on 5-element groups:
consecutive complete groups become Notes, a trailing incomplete group is
ignored.  Used to state the claim about `get_notes`. -/
def chunkNotes : List OscArg → Except PyError (List Note)
  | a :: b :: c :: d :: e :: rest => do
      let p ← pyInt a
      let st ← pyFloat b
      let du ← pyFloat c
      let v ← pyInt d
      let ns ← chunkNotes rest
      .ok (⟨p, st, du, v, pyBool e⟩ :: ns)
  | _ => .ok []

/-- `Clip.get_name` response processing (clip.py lines 37-49):
`str(result[2]) if len(result) > 2 else ""`. -/
def get_name (result : List OscArg) : String :=
  if h : 2 < result.length then pyStr (result.get ⟨2, h⟩) else ""

/-- `Clip.get_length` response processing (clip.py lines 83-95):
`float(result[2])`, unguarded indexing at position 2. -/
def get_length (result : List OscArg) : Except PyError Rat := do
  pyFloat (← pyIndex result 2)

/-- Client calls of `Clip.remove_notes` (clip.py lines 217-244): one
send whose fifth wire argument is `end_time - start_time` and whose
sixth is `pitch_end - pitch_start + 1`. -/
def remove_notes (track_index clip_index : Int) (start_time end_time : Rat)
    (pitch_start pitch_end : Int) : List Call :=
  [.send "/live/clip/remove/notes"
    [.int track_index, .int clip_index, .float start_time, .int pitch_start,
     .float (end_time - start_time), .int (pitch_end - pitch_start + 1)]]

end Clip

namespace Device

/-- `Device.get_name` response processing (device.py lines 35-49):
`str(result[2]) if len(result) > 2 else ""`. -/
def get_name (result : List OscArg) : String :=
  if h : 2 < result.length then pyStr (result.get ⟨2, h⟩) else ""

end Device

/-! ## The core client, modelled from the spec

The core module osc_client/client.py is not in the sources; the state of
the Correlation Table, Subscription Registry and lifecycle, and the
`query` / `send` / `close` operations, are modelled from the
specification (sections 3-5 of spec.md). -/

/-- Errors raised by client operations, per the spec's error taxonomy. -/
inductive QueryError where
  | timeoutErr
  | closedErr
  | concurrentErr
  deriving DecidableEq, Repr

/-- Modelled from the spec: the state of the missing core client
(osc_client/client.py): lifecycle flag, the Listener Loop's running flag,
the Correlation Table (addresses with a PendingQuery) and the
Subscription Registry (address to callback id, at most one each). -/
structure ClientState where
  isOpen : Bool
  listener : Bool
  pending : List String
  subs : List (String × Nat)
  deriving DecidableEq, Repr

/-- Modelled from the spec: the state right after `open`: active client,
listener running, empty tables. -/
def initState : ClientState :=
  ⟨true, true, [], []⟩

/-- Modelled from the spec: registration step of `query` (missing core):
rejected with ClosedError on a closed client, with ConcurrentQueryError
when a PendingQuery for the address already exists (the spec's policy
(b)); otherwise the PendingQuery is inserted. -/
def queryRegister (s : ClientState) (a : String) : Except QueryError ClientState :=
  if s.isOpen = false then .error .closedErr
  else if a ∈ s.pending then .error .concurrentErr
  else .ok { s with pending := a :: s.pending }

/-- Modelled from the spec: the first reply among the timeline of
incoming datagrams (one slot per time unit) whose address matches. -/
def firstReply (a : String) : List (Option Message) → Option (List OscArg)
  | [] => none
  | none :: rest => firstReply a rest
  | some m :: rest => if m.address = a then some m.args else firstReply a rest

/-- Modelled from the spec: a whole `query(a, timeout := T)` call of the
missing core against a timeline of incoming datagrams: register the
PendingQuery, wait up to T slots for a matching reply, and remove the
table entry on success and on timeout alike. -/
def runQuery (s : ClientState) (a : String) (T : Nat)
    (incoming : List (Option Message)) :
    Except QueryError (List OscArg) × ClientState :=
  match queryRegister s a with
  | .error e => (.error e, s)
  | .ok s1 =>
      match firstReply a (incoming.take T) with
      | some args => (.ok args, { s1 with pending := s1.pending.erase a })
      | none => (.error .timeoutErr, { s1 with pending := s1.pending.erase a })

/-- Modelled from the spec: `send` of the missing core; fire-and-forget,
fails with ClosedError after shutdown and never changes the tables. -/
def sendClient (s : ClientState) (_a : String) (_args : List OscArg) :
    Except QueryError ClientState :=
  if s.isOpen then .ok s else .error .closedErr

/-- Modelled from the spec: `close()` of the missing core: stops the
Listener Loop, clears both tables, and fails every currently-pending
query with ClosedError (returned as the list of failed addresses). -/
def closeClient (s : ClientState) : ClientState × List (String × QueryError) :=
  (⟨false, false, [], []⟩, s.pending.map fun a => (a, .closedErr))

/-- Modelled from the spec: the events that mutate the client state: a
query registering its waiter, a datagram dispatched by the Listener Loop,
a query timing out, subscribe / unsubscribe, a fire-and-forget send, and
shutdown. -/
inductive Event where
  | queryStart (a : String)
  | arrive (m : Message)
  | timeoutFire (a : String)
  | subscribeEv (a : String) (cb : Nat)
  | unsubscribeEv (a : String)
  | sendEv (a : String) (args : List OscArg)
  | closeEv

/-- Modelled from the spec: the state transition for one event.  A
rejected query leaves the state unchanged; dispatch and timeout remove
the PendingQuery; subscribe replaces any callback at the same address
(last-registration-wins); send touches nothing; close clears all. -/
def applyEvent (s : ClientState) : Event → ClientState
  | .queryStart a =>
      match queryRegister s a with
      | .ok s1 => s1
      | .error _ => s
  | .arrive m => { s with pending := s.pending.erase m.address }
  | .timeoutFire a => { s with pending := s.pending.erase a }
  | .subscribeEv a cb =>
      { s with subs := (a, cb) :: s.subs.filter fun p => p.1 ≠ a }
  | .unsubscribeEv a => { s with subs := s.subs.filter fun p => p.1 ≠ a }
  | .sendEv _ _ => s
  | .closeEv => (closeClient s).1

/-- Modelled from the spec: the client state reached from `open` after a
sequence of events. -/
def run (evs : List Event) : ClientState :=
  evs.foldl applyEvent initState

/-- The invariants of the client state: the Correlation Table holds at
most one PendingQuery per address, and a closed client has none. -/
def ClientInv (s : ClientState) : Prop :=
  s.pending.Nodup ∧ (s.isOpen = false → s.pending = [])

/-- Modelled from the spec: true when no datagram carrying address `a`
occupies this timeline slot. -/
def noReplyFor (a : String) : Option Message → Bool
  | some m => m.address ≠ a
  | none => true

/-- A concrete notes response: two header indices, one complete 5-value
group, and one trailing value. -/
def sampleNotesResponse : List OscArg :=
  [.int 0, .int 0, .int 60, .float 0, .float 1, .int 100, .int 0, .int 99]


theorem decodeInt_encodeInt (n : Int) (rest : List Nat) :
    decodeInt (encodeInt n ++ rest) = .ok (n, rest) := by
  rcases lt_or_ge n 0 with h | h
  · have h1 : encodeInt n = [1, n.natAbs] := by
      unfold encodeInt; rw [if_pos h]
    rw [h1]
    show Except.ok (if (1 : Nat) = 1 then -(n.natAbs : Int) else (n.natAbs : Int), rest)
      = Except.ok (n, rest)
    rw [if_pos rfl]
    have h2 : -((n.natAbs : Int)) = n := by omega
    rw [h2]
  · have h1 : encodeInt n = [0, n.natAbs] := by
      unfold encodeInt; rw [if_neg (by omega)]
    rw [h1]
    show Except.ok (if (0 : Nat) = 1 then -(n.natAbs : Int) else (n.natAbs : Int), rest)
      = Except.ok (n, rest)
    rw [if_neg (by decide)]
    have h2 : ((n.natAbs : Int)) = n := by omega
    rw [h2]

theorem decodeString_encodeString (s : String) (rest : List Nat) :
    decodeString (encodeString s ++ rest) = .ok (s, rest) := by
  obtain ⟨data⟩ := s
  simp only [encodeString, decodeString, List.cons_append, String.mk_length]
  have hlen : data.length = (data.map Char.toNat).length := by
    rw [List.length_map]
  rw [hlen, if_pos (by simp), List.take_left, List.drop_left, List.map_map]
  have hmap : data.map (Char.ofNat ∘ Char.toNat) = data := by
    simp [Function.comp_def, Char.ofNat_toNat]
  rw [hmap]

theorem decodeArg_encodeArg (a : OscArg) (rest : List Nat) :
    decodeArg (encodeArg a ++ rest) = .ok (a, rest) := by
  cases a with
  | int n =>
      simp only [encodeArg, List.cons_append, decodeArg]
      rw [decodeInt_encodeInt]
      rfl
  | float q =>
      simp only [encodeArg, List.cons_append, List.append_assoc,
        List.singleton_append, decodeArg]
      rw [decodeInt_encodeInt]
      show Except.ok (OscArg.float (mkRat q.num q.den), rest)
        = Except.ok (OscArg.float q, rest)
      rw [Rat.mkRat_self]
  | str s =>
      simp only [encodeArg, List.cons_append, decodeArg]
      rw [decodeString_encodeString]
      rfl
  | bool b =>
      cases b <;> simp [encodeArg, decodeArg]

theorem decodeArgs_encode (as : List OscArg) (rest : List Nat) :
    decodeArgs as.length ((as.map encodeArg).flatten ++ rest) = .ok (as, rest) := by
  induction as generalizing rest with
  | nil => simp [decodeArgs]
  | cons a as ih =>
      simp only [List.map_cons, List.flatten_cons, List.length_cons,
        List.append_assoc, decodeArgs]
      rw [decodeArg_encodeArg]
      show (do
        let p ← decodeArgs as.length ((as.map encodeArg).flatten ++ rest)
        Except.ok (a :: p.1, p.2)) = Except.ok (a :: as, rest)
      rw [ih]
      rfl

/-- Claim C1: for every well-formed Message m (address plus arguments each
of type number, string, or boolean), decoding the bytes produced by
encoding m yields a Message equal to m: decode (encode m) = m. -/
theorem decode_encode_roundtrip (m : Message) : decode (encode m) = .ok m := by
  obtain ⟨addr, as⟩ := m
  simp only [encode, decode]
  rw [decodeString_encodeString]
  have h := decodeArgs_encode as []
  rw [List.append_nil] at h
  show (do
        let p ← decodeArgs as.length (as.map encodeArg).flatten
        if p.2 = [] then Except.ok (Message.mk addr p.1)
        else Except.error DecodingError.trailing)
      = Except.ok (Message.mk addr as)
  rw [h]
  rfl

theorem inv_applyEvent (s : ClientState) (e : Event) (h : ClientInv s) :
    ClientInv (applyEvent s e) := by
  obtain ⟨hnd, hcl⟩ := h
  cases e with
  | queryStart a =>
      simp only [applyEvent, queryRegister]
      by_cases ho : s.isOpen = false
      · rw [if_pos ho]; exact ⟨hnd, hcl⟩
      · rw [if_neg ho]
        by_cases hm : a ∈ s.pending
        · rw [if_pos hm]; exact ⟨hnd, hcl⟩
        · rw [if_neg hm]
          refine ⟨List.Nodup.cons hm hnd, ?_⟩
          intro hfalse
          exact absurd hfalse ho
  | arrive m =>
      refine ⟨List.Nodup.erase _ hnd, fun hc => ?_⟩
      show s.pending.erase m.address = []
      rw [hcl hc]
      rfl
  | timeoutFire a =>
      refine ⟨List.Nodup.erase _ hnd, fun hc => ?_⟩
      show s.pending.erase a = []
      rw [hcl hc]
      rfl
  | subscribeEv a cb => exact ⟨hnd, hcl⟩
  | unsubscribeEv a => exact ⟨hnd, hcl⟩
  | sendEv a args => exact ⟨hnd, hcl⟩
  | closeEv => exact ⟨List.nodup_nil, fun _ => rfl⟩

theorem inv_foldl (evs : List Event) (s : ClientState) (h : ClientInv s) :
    ClientInv (evs.foldl applyEvent s) := by
  induction evs generalizing s with
  | nil => exact h
  | cons e evs ih => exact ih _ (inv_applyEvent s e h)

theorem inv_run (evs : List Event) : ClientInv (run evs) :=
  inv_foldl evs initState ⟨List.nodup_nil, fun h => by cases h⟩


theorem ok_bind {ε α β : Type} (x : α) (f : α → Except ε β) :
    (Except.ok x >>= f : Except ε β) = f x := rfl

theorem pyInt_ok (a : OscArg) (h : scalarArg a = true) : ∃ n, pyInt a = .ok n := by
  cases a <;> simp [scalarArg, pyInt] at h ⊢

theorem pyFloat_ok (a : OscArg) (h : scalarArg a = true) :
    ∃ q, pyFloat a = .ok q := by
  cases a <;> simp [scalarArg, pyFloat] at h ⊢

namespace Clip

theorem chunkNotes_short (l : List OscArg) (h : l.length < 5) :
    chunkNotes l = .ok [] := by
  match l with
  | [] => rfl
  | [_] => rfl
  | [_, _] => rfl
  | [_, _, _] => rfl
  | [_, _, _, _] => rfl
  | _ :: _ :: _ :: _ :: _ :: _ =>
      simp at h
      omega

theorem notesLoop_eq_chunk (values : List OscArg) (i : Nat) :
    notesLoop values i = chunkNotes (values.drop i) := by
  rw [notesLoop]
  by_cases hi : i < values.length
  · rw [dif_pos hi]
    by_cases h : i + 4 < values.length
    · rw [dif_pos h]
      have h1 : i + 1 < values.length := by omega
      have h2 : i + 2 < values.length := by omega
      have h3 : i + 3 < values.length := by omega
      have hd : values.drop i
          = values.get ⟨i, hi⟩ :: values.get ⟨i + 1, h1⟩ :: values.get ⟨i + 2, h2⟩
            :: values.get ⟨i + 3, h3⟩ :: values.get ⟨i + 4, h⟩
            :: values.drop (i + 5) := by
        rw [List.drop_eq_getElem_cons hi, List.drop_eq_getElem_cons h1,
          List.drop_eq_getElem_cons h2, List.drop_eq_getElem_cons h3,
          List.drop_eq_getElem_cons h]
        simp [List.get_eq_getElem]
      rw [hd]
      simp only [chunkNotes]
      rw [notesLoop_eq_chunk values (i + 5)]
    · rw [dif_neg h]
      rw [notesLoop_eq_chunk values (i + 5)]
      rw [List.drop_eq_nil_of_le (by omega : values.length ≤ i + 5)]
      rw [chunkNotes_short (values.drop i) (by rw [List.length_drop]; omega)]
      rfl
  · rw [dif_neg hi]
    rw [List.drop_eq_nil_of_le (by omega : values.length ≤ i)]
    rfl
  termination_by values.length - i

theorem chunkNotes_ok_length (l : List OscArg) (h : l.all scalarArg = true) :
    ∃ ns, chunkNotes l = .ok ns ∧ ns.length = l.length / 5 := by
  match l with
  | [] => exact ⟨[], rfl, rfl⟩
  | [_] => exact ⟨[], rfl, by simp only [List.length_cons, List.length_nil]⟩
  | [_, _] => exact ⟨[], rfl, by simp only [List.length_cons, List.length_nil]⟩
  | [_, _, _] => exact ⟨[], rfl, by simp only [List.length_cons, List.length_nil]⟩
  | [_, _, _, _] => exact ⟨[], rfl, by simp only [List.length_cons, List.length_nil]⟩
  | a :: b :: c :: d :: e :: rest =>
      simp only [List.all_cons, Bool.and_eq_true] at h
      obtain ⟨ha, hb, hc, hd2, _, hrest⟩ := h
      obtain ⟨p, hp⟩ := pyInt_ok a ha
      obtain ⟨st, hst⟩ := pyFloat_ok b hb
      obtain ⟨du, hdu⟩ := pyFloat_ok c hc
      obtain ⟨v, hv⟩ := pyInt_ok d hd2
      obtain ⟨ns, hns, hlen⟩ := chunkNotes_ok_length rest hrest
      refine ⟨⟨p, st, du, v, pyBool e⟩ :: ns, ?_, ?_⟩
      · simp only [chunkNotes, hp, hst, hdu, hv, hns, ok_bind]
      · simp only [List.length_cons, hlen]
        omega
  termination_by l.length

end Clip

theorem firstReply_eq_none (a : String) (l : List (Option Message))
    (h : l.all (noReplyFor a) = true) : firstReply a l = none := by
  induction l with
  | nil => rfl
  | cons om rest ih =>
      simp only [List.all_cons, Bool.and_eq_true] at h
      obtain ⟨h1, h2⟩ := h
      cases om with
      | none => exact ih h2
      | some m =>
          rw [firstReply]
          rw [if_neg (by simpa [noReplyFor] using h1)]
          exact ih h2

/-- Claim C2: for every address a and timeout T, if no response message
for a arrives within T, query(a, timeout := T) fails with TimeoutError
after the T-slot wait, and afterwards the Correlation Table holds no
entry for a (so a later message to a cannot satisfy the stale caller). -/
theorem query_timeout_clears_entry (s : ClientState) (a : String) (T : Nat)
    (incoming : List (Option Message))
    (hopen : s.isOpen = true) (hnp : a ∉ s.pending)
    (hnoreply : (incoming.take T).all (noReplyFor a) = true) :
    (runQuery s a T incoming).1 = .error .timeoutErr ∧
      a ∉ (runQuery s a T incoming).2.pending := by
  have hreg : queryRegister s a = .ok { s with pending := a :: s.pending } := by
    unfold queryRegister
    rw [if_neg (by simp [hopen]), if_neg hnp]
  have hfr := firstReply_eq_none a (incoming.take T) hnoreply
  simp only [runQuery, hreg, hfr]
  refine ⟨trivial, ?_⟩
  show a ∉ (a :: s.pending).erase a
  rw [List.erase_cons_head]
  exact hnp

theorem query_timeout_clears_entry_witness :
    (initState.isOpen = true ∧ "/x/get/tempo" ∉ initState.pending ∧
      (([none, some ⟨"/other", []⟩,
         some ⟨"/x/get/tempo", [.float 120]⟩].take 2).all
        (noReplyFor "/x/get/tempo") = true)) ∧
    ((runQuery initState "/x/get/tempo" 2
        [none, some ⟨"/other", []⟩, some ⟨"/x/get/tempo", [.float 120]⟩]).1
      = .error .timeoutErr ∧
      "/x/get/tempo" ∉ (runQuery initState "/x/get/tempo" 2
        [none, some ⟨"/other", []⟩,
         some ⟨"/x/get/tempo", [.float 120]⟩]).2.pending) :=
  ⟨⟨by decide, by decide, by decide⟩,
    query_timeout_clears_entry initState "/x/get/tempo" 2
      [none, some ⟨"/other", []⟩, some ⟨"/x/get/tempo", [.float 120]⟩]
      (by decide) (by decide) (by decide)⟩

/-- Claim C3: in every reachable state of the client, the Correlation
Table holds at most one PendingQuery per address; a second concurrent
query to an address with a pending query is rejected with
ConcurrentQueryError and never silently replaces the first PendingQuery
(the state is left unchanged). -/
theorem pending_unique (evs : List Event) :
    (run evs).pending.Nodup ∧
      ∀ a, a ∈ (run evs).pending →
        queryRegister (run evs) a = .error .concurrentErr ∧
          applyEvent (run evs) (.queryStart a) = run evs := by
  obtain ⟨hnd, hcl⟩ := inv_run evs
  refine ⟨hnd, fun a ha => ?_⟩
  have hopen : (run evs).isOpen = true := by
    cases h : (run evs).isOpen
    · rw [hcl h] at ha; cases ha
    · rfl
  have hreg : queryRegister (run evs) a = .error .concurrentErr := by
    unfold queryRegister
    rw [if_neg (by simp [hopen]), if_pos ha]
  exact ⟨hreg, by simp only [applyEvent, hreg]⟩

theorem pending_unique_witness :
    ("/a" ∈ (run [.queryStart "/a"]).pending) ∧
    ((run [.queryStart "/a"]).pending.Nodup ∧
      queryRegister (run [.queryStart "/a"]) "/a" = .error .concurrentErr ∧
      applyEvent (run [.queryStart "/a"]) (.queryStart "/a")
        = run [.queryStart "/a"]) :=
  ⟨by decide,
    (pending_unique [.queryStart "/a"]).1,
    ((pending_unique [.queryStart "/a"]).2 "/a" (by decide)).1,
    ((pending_unique [.queryStart "/a"]).2 "/a" (by decide)).2⟩

/-- Claim C4: close() is idempotent; it stops the Listener Loop, fails
every currently-pending query with ClosedError, clears the Subscription
Registry, and releases the Transport; after close(), every subsequent
query or send call fails with ClosedError. -/
theorem close_idempotent_and_final (s : ClientState) :
    (closeClient s).1.isOpen = false ∧
    (closeClient s).1.listener = false ∧
    (closeClient s).1.pending = [] ∧
    (closeClient s).1.subs = [] ∧
    (closeClient s).2 = (s.pending.map fun a => (a, QueryError.closedErr)) ∧
    closeClient (closeClient s).1 = ((closeClient s).1, []) ∧
    (∀ a, queryRegister (closeClient s).1 a = .error .closedErr) ∧
    (∀ a args, sendClient (closeClient s).1 a args = .error .closedErr) :=
  ⟨rfl, rfl, rfl, rfl, rfl, rfl, fun _ => rfl, fun _ _ => rfl⟩

/-- Claim C5: if the remote replies within the timeout with a message
whose address is the queried one and whose arguments are p, the query
returns exactly p; in particular a "/x/get/tempo" reply (120.0) yields
the one-element tuple, which Song.get_tempo reads at index 0. -/
theorem query_returns_reply (s : ClientState) (a : String) (T : Nat)
    (incoming : List (Option Message)) (p : List OscArg)
    (hopen : s.isOpen = true) (hnp : a ∉ s.pending)
    (hreply : firstReply a (incoming.take T) = some p) :
    (runQuery s a T incoming).1 = .ok p ∧
      Song.get_tempo [OscArg.float 120] = .ok 120 := by
  have hreg : queryRegister s a = .ok { s with pending := a :: s.pending } := by
    unfold queryRegister
    rw [if_neg (by simp [hopen]), if_neg hnp]
  simp only [runQuery, hreg, hreply]
  exact ⟨trivial, rfl⟩

theorem query_returns_reply_witness :
    (initState.isOpen = true ∧ "/x/get/tempo" ∉ initState.pending ∧
      firstReply "/x/get/tempo"
        (([some ⟨"/x/get/tempo", [.float 120]⟩].take 1))
        = some [.float 120]) ∧
    ((runQuery initState "/x/get/tempo" 1
        [some ⟨"/x/get/tempo", [.float 120]⟩]).1 = .ok [.float 120] ∧
      Song.get_tempo [OscArg.float 120] = .ok 120) :=
  ⟨⟨by decide, by decide, by decide⟩,
    query_returns_reply initState "/x/get/tempo" 1
      [some ⟨"/x/get/tempo", [.float 120]⟩] [.float 120]
      (by decide) (by decide) (by decide)⟩

/-- Claim C6, counterexample: the wrapper layer's registration and
removal calls are not made through operations named subscribe and
unsubscribe; the registration call of Song.on_tempo_change goes through
the method named start_listener, and no listener-related wrapper call
uses a method named subscribe or unsubscribe. -/
theorem registration_method_not_subscribe :
    Song.on_tempo_change.map methodName = ["send", "start_listener"] ∧
    "subscribe" ∉ Song.listenerCalls.map methodName ∧
    "unsubscribe" ∉ Song.listenerCalls.map methodName := by
  decide

/-- Claim C6 as amended: the facade surface consumed by the wrapper layer
consists of send, query, start_listener, stop_listener, connect and
close; every subscription registration performed by the listener-related
wrapper methods goes through start_listener and every removal through
stop_listener, and connect builds the client from host, send port and
receive port. -/
theorem facade_methods_used :
    Song.listenerCalls.map methodName =
      ["send", "start_listener", "send", "stop_listener",
       "send", "start_listener", "send", "stop_listener"] ∧
    Song.listenerCalls.filter (fun c => methodName c == "start_listener") =
      [.startListener "/live/song/get/tempo",
       .startListener "/live/song/get/is_playing"] ∧
    Song.listenerCalls.filter (fun c => methodName c == "stop_listener") =
      [.stopListener "/live/song/get/tempo",
       .stopListener "/live/song/get/is_playing"] ∧
    connect "127.0.0.1" 11000 11001 =
      ClientConfig.mk "127.0.0.1" 11000 11001 := by
  decide

/-- Claim C7: each listener-registration wrapper method first sends a
fire-and-forget start request and only then registers the callback; the
matching stop method sends the corresponding stop request; and a send
never touches the Correlation Table (it leaves the client state
entirely unchanged). -/
theorem listener_requests_are_sends :
    Song.on_tempo_change =
      [Call.send "/live/song/start_listen/tempo" [],
       Call.startListener "/live/song/get/tempo"] ∧
    Song.stop_tempo_listener =
      [Call.send "/live/song/stop_listen/tempo" [],
       Call.stopListener "/live/song/get/tempo"] ∧
    Song.on_is_playing_change =
      [Call.send "/live/song/start_listen/is_playing" [],
       Call.startListener "/live/song/get/is_playing"] ∧
    Song.stop_is_playing_listener =
      [Call.send "/live/song/stop_listen/is_playing" [],
       Call.stopListener "/live/song/get/is_playing"] ∧
    (∀ s a args, applyEvent s (.sendEv a args) = s) :=
  ⟨rfl, rfl, rfl, rfl, fun _ _ _ => rfl⟩

/-- Claim C8: Clip.get_notes parses the response in consecutive 5-value
groups starting at index 2 (pitch as int, start_time as float, duration
as float, velocity as int, mute as bool), ignoring a trailing incomplete
group; on an all-scalar response it returns exactly
(len(r) - 2) / 5 notes when len(r) > 2 and the empty list otherwise. -/
theorem get_notes_chunks (r : List OscArg) :
    Clip.get_notes r = Clip.chunkNotes (r.drop 2) ∧
      (r.all scalarArg = true →
        ∃ ns, Clip.get_notes r = .ok ns ∧ ns.length = (r.length - 2) / 5) := by
  have hmain : Clip.get_notes r = Clip.chunkNotes (r.drop 2) := by
    unfold Clip.get_notes
    by_cases h : 2 < r.length
    · rw [if_pos h, Clip.notesLoop_eq_chunk, List.drop_zero]
    · rw [if_neg h]
      rw [List.drop_eq_nil_of_le (by omega : r.length ≤ 2)]
      rfl
  refine ⟨hmain, fun hs => ?_⟩
  have hdropAll : (r.drop 2).all scalarArg = true := by
    rw [List.all_eq_true] at hs ⊢
    intro x hx
    exact hs x (List.mem_of_mem_drop hx)
  obtain ⟨ns, hok, hlen⟩ := Clip.chunkNotes_ok_length (r.drop 2) hdropAll
  refine ⟨ns, hmain.trans hok, ?_⟩
  rw [hlen, List.length_drop]

theorem get_notes_chunks_witness :
    sampleNotesResponse.all scalarArg = true ∧
      ∃ ns, Clip.get_notes sampleNotesResponse = .ok ns ∧
        ns.length = (sampleNotesResponse.length - 2) / 5 :=
  ⟨by decide, (get_notes_chunks sampleNotesResponse).2 (by decide)⟩

/-- Claim C9: Clip.remove_notes sends exactly one
"/live/clip/remove/notes" message whose six arguments are
(track_index, clip_index, start_time, pitch_start,
end_time - start_time, pitch_end - pitch_start + 1); the fifth and sixth
wire arguments are the duration of the time range and the size of the
inclusive pitch range, not end_time and pitch_end themselves. -/
theorem remove_notes_wire_args (t c : Int) (st et : Rat) (ps pe : Int) :
    Clip.remove_notes t c st et ps pe =
      [Call.send "/live/clip/remove/notes"
        [.int t, .int c, .float st, .int ps, .float (et - st),
         .int (pe - ps + 1)]] ∧
    (Clip.remove_notes t c st et ps pe).length = 1 ∧
    Clip.remove_notes 0 0 1 3 10 20 =
      [Call.send "/live/clip/remove/notes"
        [.int 0, .int 0, .float 1, .int 10, .float 2, .int 11]] ∧
    (2 : Rat) ≠ 3 ∧ (11 : Int) ≠ 20 :=
  ⟨rfl, rfl, by norm_num [Clip.remove_notes], by norm_num, by decide⟩

/-- Claim C10: on a query response with fewer than 3 elements,
Clip.get_name and Device.get_name return the empty string instead of
raising; Clip.get_length indexes position 2 unguarded on the same
response shape and fails with an IndexError. -/
theorem short_response_name_default (r : List OscArg) (h : r.length < 3) :
    Clip.get_name r = "" ∧ Device.get_name r = "" ∧
      Clip.get_length r = .error .indexError := by
  refine ⟨?_, ?_, ?_⟩
  · unfold Clip.get_name
    rw [dif_neg (by omega)]
  · unfold Device.get_name
    rw [dif_neg (by omega)]
  · unfold Clip.get_length pyIndex
    rw [dif_neg (by omega)]
    rfl

theorem short_response_name_default_witness :
    ([OscArg.int 0, OscArg.int 0] : List OscArg).length < 3 ∧
      (Clip.get_name [OscArg.int 0, OscArg.int 0] = "" ∧
        Device.get_name [OscArg.int 0, OscArg.int 0] = "" ∧
        Clip.get_length [OscArg.int 0, OscArg.int 0] = .error .indexError) :=
  ⟨by decide, short_response_name_default [OscArg.int 0, OscArg.int 0] (by decide)⟩
